import Mathlib

/-!
Verification of the FastPOS point-of-sale system (React/TypeScript) against its
natural-language specification.  The data model follows src/types.ts; the
operations are shallow embeddings of the handlers in src/App.tsx, the db layer
(src/unnamed/part_001) and the reporting component SalesStatsView
(src/unnamed/part_003).  Money and rates are modelled as rationals; JavaScript
NaN is modelled as the value none of an Option type where it can arise.
-/

namespace POS

/-- src/types.ts: PaymentMethod. -/
inductive PaymentMethod
| cash
| card
| mobile
| zelle
deriving DecidableEq, Repr

/-- src/types.ts: OrderStatus. -/
inductive OrderStatus
| pending
| ready
| completed
| cancelled
deriving DecidableEq, Repr

/-- src/types.ts: CartItem (Product fields plus quantity). -/
structure CartItem where
  id : String
  name : String
  price : ℚ
  category : String
  quantity : ℕ
deriving DecidableEq, Repr

/-- src/types.ts: Product. -/
structure Product where
  id : String
  name : String
  price : ℚ
  category : String
deriving DecidableEq, Repr

/-- src/types.ts: Sale.  The field exchangeRate is the spec's
exchangeRateAtSale, frozen at creation time. -/
structure Sale where
  id : String
  orderNumber : ℕ
  date : String
  items : List CartItem
  total : ℚ
  paymentMethod : PaymentMethod
  exchangeRate : ℚ
  status : OrderStatus
  customerName : String
deriving DecidableEq, Repr

/-- src/types.ts: ExpenseCategory. -/
inductive ExpenseCategory
| expense
| loss
deriving DecidableEq, Repr

/-- src/types.ts: Expense. -/
structure Expense where
  id : String
  date : String
  amount : ℚ
  description : String
  category : ExpenseCategory
deriving DecidableEq, Repr

/-- The calendar-day component of an ISO date string: the JavaScript idiom
date.split('T')[0] used throughout SalesStatsView (src/unnamed/part_003),
i.e. everything before the first 'T'. -/
def dayOf (date : String) : String :=
  String.mk (date.data.takeWhile (fun c => c ≠ 'T'))

/-- Lexicographic comparison of character lists by code unit, the order
JavaScript uses for its string < and > operators. -/
def charListLt : List Char → List Char → Bool
| [], [] => false
| [], _ :: _ => true
| _ :: _, [] => false
| a :: as, b :: bs =>
  if a.toNat < b.toNat then true
  else if b.toNat < a.toNat then false
  else charListLt as bs

/-- The JavaScript string < operator. -/
def jsLt (a b : String) : Bool := charListLt a.data b.data

/-- The JavaScript string <= relation: a ≤ b exactly when not b < a. -/
def jsLe (a b : String) : Bool := !(jsLt b a)

/-- src/unnamed/part_003 lines 24-31: the filteredSales memo.  An entry is
dropped when a nonempty startDate exceeds its day string or a nonempty endDate
is below it; the comparison is plain string order on the day component, and the
truthiness test on the JavaScript strings startDate and endDate is
nonemptiness. -/
def filteredSales (sales : List Sale) (startDate endDate : String) : List Sale :=
  sales.filter (fun s =>
    let saleDay := dayOf s.date
    if startDate ≠ "" ∧ jsLt saleDay startDate then false
    else if endDate ≠ "" ∧ jsLt endDate saleDay then false
    else true)

/-- src/unnamed/part_003 lines 33-40: the filteredExpenses memo, same day-string
filter as filteredSales. -/
def filteredExpenses (expenses : List Expense) (startDate endDate : String) : List Expense :=
  expenses.filter (fun e =>
    let expDay := dayOf e.date
    if startDate ≠ "" ∧ jsLt expDay startDate then false
    else if endDate ≠ "" ∧ jsLt endDate expDay then false
    else true)

/-- Result record of the stats memo (src/unnamed/part_003 lines 42-46). -/
structure Stats where
  totalRevenue : ℚ
  totalExpenses : ℚ
  netProfit : ℚ
deriving DecidableEq, Repr

/-- src/unnamed/part_003 lines 42-46: the stats memo, computed from the already
filtered sales and expenses by reduce with initial accumulator 0. -/
def stats (fs : List Sale) (fe : List Expense) : Stats :=
  let totalRevenue := fs.foldl (fun acc sale => acc + sale.total) 0
  let totalExpenses := fe.foldl (fun acc exp => acc + exp.amount) 0
  { totalRevenue := totalRevenue
    totalExpenses := totalExpenses
    netProfit := totalRevenue - totalExpenses }

/-- Result record of the cashCut memo (src/unnamed/part_003 lines 48-57). -/
structure CashCut where
  usdCash : ℚ
  usdZelle : ℚ
  vesMobile : ℚ
  vesCard : ℚ
deriving DecidableEq, Repr

/-- One step of the forEach loop in the cashCut memo: cash and zelle sales add
sale.total to the USD buckets, mobile and card sales add
sale.total * sale.exchangeRate (the sale's own stored rate) to the VES buckets. -/
def cashCutStep (acc : CashCut) (sale : Sale) : CashCut :=
  if sale.paymentMethod = PaymentMethod.cash then
    { acc with usdCash := acc.usdCash + sale.total }
  else if sale.paymentMethod = PaymentMethod.zelle then
    { acc with usdZelle := acc.usdZelle + sale.total }
  else if sale.paymentMethod = PaymentMethod.mobile then
    { acc with vesMobile := acc.vesMobile + sale.total * sale.exchangeRate }
  else if sale.paymentMethod = PaymentMethod.card then
    { acc with vesCard := acc.vesCard + sale.total * sale.exchangeRate }
  else acc

/-- src/unnamed/part_003 lines 48-57: the cashCut memo over the filtered sales,
accumulators initialised to 0. -/
def cashCut (fs : List Sale) : CashCut :=
  fs.foldl cashCutStep { usdCash := 0, usdZelle := 0, vesMobile := 0, vesCard := 0 }

/-- The relevant application state of the App component (src/App.tsx lines
29-38): the current exchange rate and the three data ledgers. -/
structure AppState where
  exchangeRate : ℚ
  products : List Product
  salesHistory : List Sale
  expenses : List Expense

/-- src/App.tsx line 153: handleUpdateExchangeRate = setExchangeRate; it
replaces the current rate and touches nothing else. -/
def handleUpdateExchangeRate (st : AppState) (newRate : ℚ) : AppState :=
  { st with exchangeRate := newRate }

/-- src/App.tsx line 282: on a successful remote insert of a sale, the local
copy with the temporary id is replaced by a copy carrying the remote id and
remote date, all other fields spread from the existing record. -/
def confirmSale (sales : List Sale) (tempId newId newDate : String) : List Sale :=
  sales.map (fun s => if s.id = tempId then { s with id := newId, date := newDate } else s)

/-- src/unnamed/part_001 lines 49-53: db.updateSaleStatus issues
update({ status }).eq('id', id) on the sales table: every row whose id matches
gets the requested status verbatim; no other field and no other row changes. -/
def updateSaleStatus (sales : List Sale) (id_ : String) (status : OrderStatus) : List Sale :=
  sales.map (fun s => if s.id = id_ then { s with status := status } else s)

/-- Outcome of an awaited remote call: the payload of a successful insert, or
the caught error branch. -/
inductive RemoteResult (α : Type)
| ok (data : α)
| err

/-- src/App.tsx lines 254-290 (handleCheckout, online path): the new sale is
prepended optimistically; on remote success the temp id and date are replaced
by the remote ones (line 282); on remote failure the catch block leaves the
optimistic record in state (lines 284-289, the comment says so explicitly). -/
def handleCheckoutOnline (prev : List Sale) (newSaleTemp : Sale)
    (remote : RemoteResult (String × String)) : List Sale :=
  let optimistic := newSaleTemp :: prev
  match remote with
  | RemoteResult.ok (newId, newDate) => confirmSale optimistic newSaleTemp.id newId newDate
  | RemoteResult.err => optimistic

/-- src/App.tsx lines 292-323 (handleAddExpense, online path): the temp expense
is prepended optimistically; on remote success it is replaced by the returned
row; on remote failure the catch block filters the temp record back out
(line 320). -/
def handleAddExpenseOnline (prev : List Expense) (tempExpense : Expense)
    (remote : RemoteResult Expense) : List Expense :=
  let optimistic := tempExpense :: prev
  match remote with
  | RemoteResult.ok data => optimistic.map (fun e => if e.id = tempExpense.id then data else e)
  | RemoteResult.err => optimistic.filter (fun e => e.id ≠ tempExpense.id)

/-- src/App.tsx lines 184-211 (handleAddProduct, online path): the temp product
is appended optimistically; on remote success it is replaced by the returned
row; on remote failure the catch block filters the temp record back out
(line 207). -/
def handleAddProductOnline (prev : List Product) (tempProduct : Product)
    (remote : RemoteResult Product) : List Product :=
  let optimistic := prev ++ [tempProduct]
  match remote with
  | RemoteResult.ok data => optimistic.map (fun p => if p.id = tempProduct.id then data else p)
  | RemoteResult.err => optimistic.filter (fun p => p.id ≠ tempProduct.id)

/-- A JavaScript value found under a JSON field, as far as the exchange-rate
refresh inspects it: a numeric value, or a truthy non-numeric value whose
Number() coercion is NaN. -/
inductive FieldVal
| num (q : ℚ)
| nanLike
deriving DecidableEq, Repr

/-- JavaScript truthiness of an optional field value: absent fields and the
number 0 are falsy, every other inspected value is truthy. -/
def truthyField : Option FieldVal → Bool
| none => false
| some (FieldVal.num q) => q ≠ 0
| some FieldVal.nanLike => true

/-- Number() coercion of a field value; none models NaN. -/
def coerceField : Option FieldVal → Option ℚ
| none => none
| some (FieldVal.num q) => some q
| some FieldVal.nanLike => none

/-- The JSON body of the quote-source response as fetchBCVRate inspects it:
the HTTP ok flag and the two candidate fields. -/
structure RateResponse where
  ok : Bool
  promedio : Option FieldVal
  price : Option FieldVal
deriving DecidableEq, Repr

/-- src/App.tsx lines 139-141: the local rate variable of fetchBCVRate.  It
starts at 0 and is overwritten from data.promedio if that field is truthy,
else from data.price if that one is truthy; none models NaN. -/
def selectRate (data : RateResponse) : Option ℚ :=
  if truthyField data.promedio then coerceField data.promedio
  else if truthyField data.price then coerceField data.price
  else some 0

/-- src/App.tsx lines 133-149: fetchBCVRate.  A network error (response none)
or !response.ok throws into the catch block, which leaves the rate alone.
Otherwise setExchangeRate runs only when the selected rate satisfies rate > 0
(false for NaN).  The function returns the stored rate after the refresh. -/
def fetchBCVRate (prior : ℚ) (response : Option RateResponse) : ℚ :=
  match response with
  | none => prior
  | some data =>
    if data.ok = false then prior
    else
      match selectRate data with
      | some q => if q > 0 then q else prior
      | none => prior

/-- The expense form of SalesStatsView with its amount field already passed
through parseFloat (src/unnamed/part_003 line 61): none models NaN. -/
structure ExpenseForm where
  amountUSD : Option ℚ
  description : String
  category : ExpenseCategory
deriving DecidableEq, Repr

/-- src/unnamed/part_003 lines 59-66 composed with src/App.tsx lines 292-299:
handleExpenseSubmit guards with if (!amount || !description) return, i.e. it
bails out when parseFloat gave NaN or 0 or the description is empty; otherwise
onAddExpense prepends an Expense stamped with the current timestamp and a
fresh id. -/
def handleExpenseSubmit (form : ExpenseForm) (now freshId : String)
    (expenses : List Expense) : List Expense :=
  match form.amountUSD with
  | none => expenses
  | some amount =>
    if amount = 0 ∨ form.description = "" then expenses
    else
      { id := freshId, date := now, amount := amount,
        description := form.description, category := form.category } :: expenses

/-- The numeric value of a digit string, most significant digit first. -/
def digitsVal (ds : List Char) : ℕ :=
  ds.foldl (fun acc c => 10 * acc + (c.toNat - 48)) 0

/-- JavaScript parseFloat on a character list: an optional sign, then the
longest prefix of digits, then an optional fraction; if no digit is found the
result is NaN (none).  Exponents are not modelled; no input in this
development uses them. -/
def parseFloatChars (cs : List Char) : Option ℚ :=
  let signAndRest : ℚ × List Char :=
    match cs with
    | '-' :: t => (-1, t)
    | '+' :: t => (1, t)
    | _ => (1, cs)
  let sign := signAndRest.1
  let rest := signAndRest.2
  let intPart := rest.takeWhile Char.isDigit
  let afterInt := rest.dropWhile Char.isDigit
  let fracPart : List Char :=
    match afterInt with
    | '.' :: t => t.takeWhile Char.isDigit
    | _ => []
  if intPart = [] ∧ fracPart = [] then none
  else
    some (sign * ((digitsVal intPart : ℚ) + (digitsVal fracPart : ℚ) / (10 : ℚ) ^ fracPart.length))

/-- JavaScript parseFloat restricted to plain decimal literals, modelling the
builtin used at src/App.tsx line 31 and src/unnamed/part_003 line 61. -/
def parseFloat (s : String) : Option ℚ :=
  parseFloatChars s.data

/-- src/App.tsx lines 29-32: the exchangeRate useState initialiser reads the
persisted string and evaluates savedRate ? parseFloat(savedRate) : 45.00.
A null (absent) or empty stored string is falsy and yields the 45.00 fallback;
any other stored string is fed to parseFloat unvalidated.  The result none
models NaN. -/
def initExchangeRate (savedRate : Option String) : Option ℚ :=
  match savedRate with
  | none => some 45
  | some s => if s ≠ "" then parseFloat s else some 45

/-- Modelled from the spec: the checkout handler of the newest App revision is
not among the provided sources (src/types.ts declares Sale.orderNumber and
Sale.status, src/components/OrdersView.tsx and the PosView revision in
src/unnamed/part_004 consume them, but no provided file computes orderNumber).
Spec section 4.1: createSale computes orderNumber as (count of existing sales
whose date falls on the current calendar day) + 1, sets status pending when
routed to kitchen and completed otherwise, freezes the current exchange rate on
the record, and appends to the ledger. -/
def countOnDay (sales : List Sale) (day : String) : ℕ :=
  (sales.filter (fun s => dayOf s.date = day)).length

/-- Modelled from the spec: one checkout request as fed to createSale, carrying
the data PosView (src/unnamed/part_004 lines 34-39) passes to onCheckout plus
the creation timestamp, fresh id and current provider rate. -/
structure CheckoutReq where
  now : String
  freshId : String
  items : List CartItem
  total : ℚ
  paymentMethod : PaymentMethod
  customerName : String
  routeToKitchen : Bool
  rate : ℚ

/-- Modelled from the spec (section 4.1 createSale): build the Sale with the
daily order number, freeze the rate, choose the initial status from the
delivery path, and prepend it to the ledger. -/
def createSale (sales : List Sale) (r : CheckoutReq) : Sale × List Sale :=
  let sale : Sale :=
    { id := r.freshId
      orderNumber := countOnDay sales (dayOf r.now) + 1
      date := r.now
      items := r.items
      total := r.total
      paymentMethod := r.paymentMethod
      exchangeRate := r.rate
      status := if r.routeToKitchen then OrderStatus.pending else OrderStatus.completed
      customerName := r.customerName }
  (sale, sale :: sales)

/-- Modelled from the spec: run a sequence of checkouts, returning the assigned
order numbers in creation order together with the final ledger. -/
def runCheckouts (sales : List Sale) : List CheckoutReq → List ℕ × List Sale
| [] => ([], sales)
| r :: rs =>
  let created := createSale sales r
  let remaining := runCheckouts created.2 rs
  (created.1.orderNumber :: remaining.1, remaining.2)

/-- The mobile bucket of the cash cut with each contributing sale's
local-currency amount converted back to USD by that sale's own stored rate,
the quantity the sum law of the spec (section 8) is about. -/
def vesMobileBackToUSD (fs : List Sale) : ℚ :=
  ((fs.filter fun s => s.paymentMethod = PaymentMethod.mobile).map
    (fun s => s.total * s.exchangeRate / s.exchangeRate)).sum

/-- The card bucket of the cash cut converted back to USD sale by sale,
analogous to vesMobileBackToUSD. -/
def vesCardBackToUSD (fs : List Sale) : ℚ :=
  ((fs.filter fun s => s.paymentMethod = PaymentMethod.card).map
    (fun s => s.total * s.exchangeRate / s.exchangeRate)).sum

/-! ## Concrete fixtures

Small concrete records used to instantiate the theorems below, mirroring the
example scenarios of spec section 8 (rate 45, cash and mobile sales). -/

def saleCash : Sale :=
  { id := "a1", orderNumber := 1, date := "2024-03-05T09:00:00Z", items := [],
    total := 13, paymentMethod := PaymentMethod.cash, exchangeRate := 45,
    status := OrderStatus.completed, customerName := "Ana" }

def saleMobile : Sale :=
  { id := "a2", orderNumber := 2, date := "2024-03-05T11:00:00Z", items := [],
    total := 5, paymentMethod := PaymentMethod.mobile, exchangeRate := 45,
    status := OrderStatus.completed, customerName := "Luis" }

def saleOld : Sale :=
  { id := "a0", orderNumber := 1, date := "2024-02-01T09:00:00Z", items := [],
    total := 7, paymentMethod := PaymentMethod.zelle, exchangeRate := 40,
    status := OrderStatus.completed, customerName := "Rosa" }

def salesW : List Sale := [saleCash, saleMobile, saleOld]

def expenseW : Expense :=
  { id := "e1", date := "2024-03-05T12:00:00Z", amount := 4,
    description := "Hielo", category := ExpenseCategory.expense }

def expensesW : List Expense := [expenseW]

def saleT1 : Sale :=
  { id := "t1", orderNumber := 1, date := "2024-03-05T10:00:00Z", items := [],
    total := 13, paymentMethod := PaymentMethod.cash, exchangeRate := 45,
    status := OrderStatus.pending, customerName := "Pedro" }

def saleCompleted : Sale :=
  { id := "s1", orderNumber := 3, date := "2024-03-05T13:00:00Z", items := [],
    total := 6, paymentMethod := PaymentMethod.card, exchangeRate := 45,
    status := OrderStatus.completed, customerName := "Eva" }

def reqA : CheckoutReq :=
  { now := "2024-03-05T09:00:00Z", freshId := "r1", items := [], total := 13,
    paymentMethod := PaymentMethod.cash, customerName := "Ana",
    routeToKitchen := true, rate := 45 }

def reqB : CheckoutReq :=
  { now := "2024-03-05T10:30:00Z", freshId := "r2", items := [], total := 5,
    paymentMethod := PaymentMethod.mobile, customerName := "Luis",
    routeToKitchen := true, rate := 45 }

def reqC : CheckoutReq :=
  { now := "2024-03-05T12:00:00Z", freshId := "r3", items := [], total := 6,
    paymentMethod := PaymentMethod.zelle, customerName := "Eva",
    routeToKitchen := false, rate := 45 }

def reqNextDay : CheckoutReq :=
  { now := "2024-03-06T08:00:00Z", freshId := "r4", items := [], total := 9,
    paymentMethod := PaymentMethod.cash, customerName := "Leo",
    routeToKitchen := true, rate := 50 }

def negForm : ExpenseForm :=
  { amountUSD := some (-5), description := "Compra de Pan",
    category := ExpenseCategory.expense }

def tempExpenseW : Expense :=
  { id := "tmp9", date := "2024-03-05T14:00:00Z", amount := 4,
    description := "Pago de hielo", category := ExpenseCategory.loss }

def tempProductW : Product :=
  { id := "tmp7", name := "Refresco 1L", price := 5/2, category := "Bebidas" }

def productW : Product :=
  { id := "1", name := "Combo de Perros", price := 13/2, category := "Combos" }

/-- A quote-source response whose promedio field is truthy but coerces to
NaN (for example a non-numeric string). -/
def respNaN : RateResponse :=
  { ok := true, promedio := some FieldVal.nanLike, price := none }

def posForm : ExpenseForm :=
  { amountUSD := some 4, description := "Hielo", category := ExpenseCategory.expense }

def zeroForm : ExpenseForm :=
  { amountUSD := some 0, description := "Hielo", category := ExpenseCategory.expense }

/-- The rate value the startup initialiser produces from the persisted string
"-3"; used to exhibit a non-positive initial rate. -/
def negStoredRate : ℚ :=
  (parseFloat ("-3")).getD 0

/-! ## Helper lemmas -/

lemma foldl_add_sale_total (fs : List Sale) (init : ℚ) :
    fs.foldl (fun acc sale => acc + sale.total) init = init + (fs.map Sale.total).sum := by
  induction fs generalizing init with
  | nil => simp
  | cons s rest ih => simp [ih]; ring

lemma foldl_add_expense_amount (fe : List Expense) (init : ℚ) :
    fe.foldl (fun acc exp => acc + exp.amount) init = init + (fe.map Expense.amount).sum := by
  induction fe generalizing init with
  | nil => simp
  | cons e rest ih => simp [ih]; ring

lemma cashCut_foldl (sales : List Sale) (acc : CashCut) :
    sales.foldl cashCutStep acc =
      { usdCash := acc.usdCash +
          ((sales.filter fun s => s.paymentMethod = PaymentMethod.cash).map Sale.total).sum
        usdZelle := acc.usdZelle +
          ((sales.filter fun s => s.paymentMethod = PaymentMethod.zelle).map Sale.total).sum
        vesMobile := acc.vesMobile +
          ((sales.filter fun s => s.paymentMethod = PaymentMethod.mobile).map
            (fun s => s.total * s.exchangeRate)).sum
        vesCard := acc.vesCard +
          ((sales.filter fun s => s.paymentMethod = PaymentMethod.card).map
            (fun s => s.total * s.exchangeRate)).sum } := by
  induction sales generalizing acc with
  | nil => simp
  | cons s rest ih =>
    cases hpm : s.paymentMethod <;>
      simp [List.foldl_cons, cashCutStep, hpm, ih, List.filter_cons, CashCut.mk.injEq] <;>
      ring_nf <;> simp [add_assoc]

lemma cashCut_spec (fs : List Sale) :
    cashCut fs =
      { usdCash := ((fs.filter fun s => s.paymentMethod = PaymentMethod.cash).map Sale.total).sum
        usdZelle := ((fs.filter fun s => s.paymentMethod = PaymentMethod.zelle).map Sale.total).sum
        vesMobile := ((fs.filter fun s => s.paymentMethod = PaymentMethod.mobile).map
          (fun s => s.total * s.exchangeRate)).sum
        vesCard := ((fs.filter fun s => s.paymentMethod = PaymentMethod.card).map
          (fun s => s.total * s.exchangeRate)).sum } := by
  simp [cashCut, cashCut_foldl]

lemma sum_total_partition (l : List Sale) :
    ((l.filter fun s => s.paymentMethod = PaymentMethod.cash).map Sale.total).sum
    + ((l.filter fun s => s.paymentMethod = PaymentMethod.zelle).map Sale.total).sum
    + ((l.filter fun s => s.paymentMethod = PaymentMethod.mobile).map Sale.total).sum
    + ((l.filter fun s => s.paymentMethod = PaymentMethod.card).map Sale.total).sum
    = (l.map Sale.total).sum := by
  induction l with
  | nil => simp
  | cons s rest ih =>
    cases hpm : s.paymentMethod <;> simp [List.filter_cons, hpm] <;> linarith [ih]

lemma countOnDay_createSale (sales : List Sale) (r : CheckoutReq) (d : String) :
    countOnDay (createSale sales r).2 d
      = countOnDay sales d + (if dayOf r.now = d then 1 else 0) := by
  by_cases h : dayOf r.now = d <;> simp [createSale, countOnDay, List.filter_cons, h]

lemma countOnDay_eq_zero (sales : List Sale) (d : String)
    (h : ∀ s ∈ sales, dayOf s.date ≠ d) : countOnDay sales d = 0 := by
  simp only [countOnDay, List.length_eq_zero, List.filter_eq_nil_iff, decide_eq_true_eq]
  exact h

lemma runCheckouts_same_day (d : String) (reqs : List CheckoutReq) :
    ∀ sales : List Sale, (∀ r ∈ reqs, dayOf r.now = d) →
      (runCheckouts sales reqs).1 = List.range' (countOnDay sales d + 1) reqs.length
      ∧ countOnDay (runCheckouts sales reqs).2 d = countOnDay sales d + reqs.length := by
  induction reqs with
  | nil => intro sales _; simp [runCheckouts]
  | cons r rs ih =>
    intro sales hday
    have hr : dayOf r.now = d := hday r (by simp)
    obtain ⟨ih1, ih2⟩ := ih (createSale sales r).2 (fun x hx => hday x (by simp [hx]))
    have hcount : countOnDay (createSale sales r).2 d = countOnDay sales d + 1 := by
      simp [countOnDay_createSale, hr]
    have horder : (createSale sales r).1.orderNumber = countOnDay sales d + 1 := by
      simp [createSale, hr]
    constructor
    · simp [runCheckouts, horder, ih1, hcount, List.range'_succ]
    · simp [runCheckouts, ih2, hcount]
      omega

lemma runCheckouts_other_day (d d' : String) (reqs : List CheckoutReq) :
    ∀ sales : List Sale, (∀ r ∈ reqs, dayOf r.now = d) → d' ≠ d →
      countOnDay (runCheckouts sales reqs).2 d' = countOnDay sales d' := by
  induction reqs with
  | nil => intro sales _ _; simp [runCheckouts]
  | cons r rs ih =>
    intro sales hday hne
    have hr : dayOf r.now = d := hday r (by simp)
    have hnd : ¬ dayOf r.now = d' := by rw [hr]; exact fun hh => hne hh.symm
    simp [runCheckouts, ih _ (fun x hx => hday x (by simp [hx])) hne,
      countOnDay_createSale, hnd]

lemma selectRate_from_field (data : RateResponse) (q : ℚ) (h : selectRate data = some q)
    (hq : q ≠ 0) :
    coerceField data.promedio = some q ∨ coerceField data.price = some q := by
  unfold selectRate at h
  by_cases h1 : truthyField data.promedio = true
  · left; simpa [h1] using h
  · by_cases h2 : truthyField data.price = true
    · right
      simp only [h1] at h
      simpa [h2] using h
    · exfalso
      simp [h1, h2] at h
      exact hq h.symm

lemma parseFloatChars_neg_nonpos (t : List Char) (q : ℚ)
    (hq : parseFloatChars ('-' :: t) = some q) : q ≤ 0 := by
  unfold parseFloatChars at hq
  simp only at hq
  split at hq
  · exact absurd hq (by simp)
  · have hv := Option.some.inj hq
    have hfrac : (0:ℚ) ≤ (digitsVal (match List.dropWhile Char.isDigit t with
          | '.' :: t => List.takeWhile Char.isDigit t
          | _ => []) : ℚ) := by positivity
    have hint : (0:ℚ) ≤ (digitsVal (List.takeWhile Char.isDigit t) : ℚ) := by positivity
    have hd : (0:ℚ) ≤ (digitsVal (match List.dropWhile Char.isDigit t with
          | '.' :: t => List.takeWhile Char.isDigit t
          | _ => []) : ℚ)
        / (10 : ℚ) ^ (match List.dropWhile Char.isDigit t with
          | '.' :: t => List.takeWhile Char.isDigit t
          | _ => []).length :=
      div_nonneg hfrac (by positivity)
    linarith [hv, hint, hd]

/-! ## Claim theorems -/

/-- C1 (modelled from the spec, section 4.1): starting from a ledger with no
sale on calendar day d, a sequence of N checkouts all on day d receives the
order numbers 1..N in creation order, and a subsequent checkout on a different
calendar day restarts the numbering at 1. -/
theorem orderNumbers_one_to_N_and_reset_next_day :
    ∀ (sales : List Sale) (reqs : List CheckoutReq) (d : String) (next : CheckoutReq),
      (∀ s ∈ sales, dayOf s.date ≠ d) →
      (∀ r ∈ reqs, dayOf r.now = d) →
      dayOf next.now ≠ d →
      (∀ s ∈ sales, dayOf s.date ≠ dayOf next.now) →
      (runCheckouts sales reqs).1 = List.range' 1 reqs.length
      ∧ (createSale (runCheckouts sales reqs).2 next).1.orderNumber = 1 := by
  intro sales reqs d next h0 hall hnext h0'
  have hz : countOnDay sales d = 0 := countOnDay_eq_zero sales d h0
  obtain ⟨h1, _⟩ := runCheckouts_same_day d reqs sales hall
  refine ⟨by simpa [hz] using h1, ?_⟩
  have hz' : countOnDay sales (dayOf next.now) = 0 := countOnDay_eq_zero _ _ h0'
  have hoth := runCheckouts_other_day d (dayOf next.now) reqs sales hall hnext
  simp [createSale, hoth, hz']

/-- C1 witness: three checkouts on 2024-03-05 from an empty ledger get order
numbers 1, 2, 3, and a checkout on 2024-03-06 restarts at 1. -/
theorem orderNumbers_one_to_N_and_reset_next_day_witness :
    (runCheckouts [] [reqA, reqB, reqC]).1
        = List.range' 1 ([reqA, reqB, reqC] : List CheckoutReq).length
    ∧ (createSale (runCheckouts [] [reqA, reqB, reqC]).2 reqNextDay).1.orderNumber = 1 :=
  orderNumbers_one_to_N_and_reset_next_day [] [reqA, reqB, reqC] ("2024-03-05") reqNextDay
    (by decide) (by decide) (by decide) (by decide)

/-- C2: over any filtered set of sales the cash cut accumulates sale.total into
the cash and zelle buckets and sale.total times that sale's own stored
exchangeRate into the mobile and card buckets, and changing the current
provider rate afterwards (handleUpdateExchangeRate) leaves every bucket of the
report over the same date range unchanged. -/
theorem cashCut_stored_rates_and_rate_independence :
    (∀ fs : List Sale,
      (cashCut fs).usdCash
          = ((fs.filter fun s => s.paymentMethod = PaymentMethod.cash).map Sale.total).sum
      ∧ (cashCut fs).usdZelle
          = ((fs.filter fun s => s.paymentMethod = PaymentMethod.zelle).map Sale.total).sum
      ∧ (cashCut fs).vesMobile
          = ((fs.filter fun s => s.paymentMethod = PaymentMethod.mobile).map
              (fun s => s.total * s.exchangeRate)).sum
      ∧ (cashCut fs).vesCard
          = ((fs.filter fun s => s.paymentMethod = PaymentMethod.card).map
              (fun s => s.total * s.exchangeRate)).sum)
    ∧ ∀ (st : AppState) (newRate : ℚ) (startDate endDate : String),
        cashCut
            (filteredSales (handleUpdateExchangeRate st newRate).salesHistory startDate endDate)
          = cashCut (filteredSales st.salesHistory startDate endDate) := by
  refine ⟨fun fs => ?_, fun st newRate startDate endDate => rfl⟩
  simp [cashCut_spec]

/-- C6: with nonempty day bounds, the report retains exactly the entries whose
calendar-day string lies within the inclusive range under plain string order,
and over the filtered set totalRevenue is the sum of sale totals, totalExpenses
the sum of expense amounts, and netProfit their difference. -/
theorem report_filters_by_day_string_inclusive :
    ∀ (sales : List Sale) (expenses : List Expense) (startDate endDate : String),
      startDate ≠ "" → endDate ≠ "" →
      filteredSales sales startDate endDate
          = sales.filter (fun s => jsLe startDate (dayOf s.date) && jsLe (dayOf s.date) endDate)
      ∧ filteredExpenses expenses startDate endDate
          = expenses.filter (fun e => jsLe startDate (dayOf e.date) && jsLe (dayOf e.date) endDate)
      ∧ (stats (filteredSales sales startDate endDate)
            (filteredExpenses expenses startDate endDate)).totalRevenue
          = ((filteredSales sales startDate endDate).map Sale.total).sum
      ∧ (stats (filteredSales sales startDate endDate)
            (filteredExpenses expenses startDate endDate)).totalExpenses
          = ((filteredExpenses expenses startDate endDate).map Expense.amount).sum
      ∧ (stats (filteredSales sales startDate endDate)
            (filteredExpenses expenses startDate endDate)).netProfit
          = (stats (filteredSales sales startDate endDate)
                (filteredExpenses expenses startDate endDate)).totalRevenue
            - (stats (filteredSales sales startDate endDate)
                (filteredExpenses expenses startDate endDate)).totalExpenses := by
  intro sales expenses startDate endDate hs he
  refine ⟨?_, ?_, ?_, ?_, ?_⟩
  · apply List.filter_congr
    intro s _
    cases h1 : jsLt (dayOf s.date) startDate <;>
      cases h2 : jsLt endDate (dayOf s.date) <;>
      simp [hs, he, jsLe, h1, h2]
  · apply List.filter_congr
    intro e _
    cases h1 : jsLt (dayOf e.date) startDate <;>
      cases h2 : jsLt endDate (dayOf e.date) <;>
      simp [hs, he, jsLe, h1, h2]
  · simp [stats, foldl_add_sale_total]
  · simp [stats, foldl_add_expense_amount]
  · simp [stats]

/-- C6 witness: the report over March 2024 on the concrete fixtures. -/
theorem report_filters_by_day_string_inclusive_witness :
    filteredSales salesW ("2024-03-01") ("2024-03-31")
        = salesW.filter
            (fun s => jsLe ("2024-03-01") (dayOf s.date) && jsLe (dayOf s.date) ("2024-03-31"))
    ∧ filteredExpenses expensesW ("2024-03-01") ("2024-03-31")
        = expensesW.filter
            (fun e => jsLe ("2024-03-01") (dayOf e.date) && jsLe (dayOf e.date) ("2024-03-31"))
    ∧ (stats (filteredSales salesW ("2024-03-01") ("2024-03-31"))
          (filteredExpenses expensesW ("2024-03-01") ("2024-03-31"))).totalRevenue
        = ((filteredSales salesW ("2024-03-01") ("2024-03-31")).map Sale.total).sum
    ∧ (stats (filteredSales salesW ("2024-03-01") ("2024-03-31"))
          (filteredExpenses expensesW ("2024-03-01") ("2024-03-31"))).totalExpenses
        = ((filteredExpenses expensesW ("2024-03-01") ("2024-03-31")).map Expense.amount).sum
    ∧ (stats (filteredSales salesW ("2024-03-01") ("2024-03-31"))
          (filteredExpenses expensesW ("2024-03-01") ("2024-03-31"))).netProfit
        = (stats (filteredSales salesW ("2024-03-01") ("2024-03-31"))
              (filteredExpenses expensesW ("2024-03-01") ("2024-03-31"))).totalRevenue
          - (stats (filteredSales salesW ("2024-03-01") ("2024-03-31"))
              (filteredExpenses expensesW ("2024-03-01") ("2024-03-31"))).totalExpenses :=
  report_filters_by_day_string_inclusive salesW expensesW ("2024-03-01") ("2024-03-31")
    (by decide) (by decide)

/-- C7: when every filtered sale carries a strictly positive stored rate, the
cash and zelle buckets plus the local-currency buckets converted back to USD
with each contributing sale's own stored rate add up to the totalRevenue of the
same filtered set. -/
theorem cashCut_buckets_recover_totalRevenue :
    ∀ (sales : List Sale) (expenses : List Expense) (startDate endDate : String),
      (∀ s ∈ filteredSales sales startDate endDate, 0 < s.exchangeRate) →
      (cashCut (filteredSales sales startDate endDate)).usdCash
      + (cashCut (filteredSales sales startDate endDate)).usdZelle
      + vesMobileBackToUSD (filteredSales sales startDate endDate)
      + vesCardBackToUSD (filteredSales sales startDate endDate)
      = (stats (filteredSales sales startDate endDate)
          (filteredExpenses expenses startDate endDate)).totalRevenue := by
  intro sales expenses startDate endDate hpos
  have hmob : vesMobileBackToUSD (filteredSales sales startDate endDate)
      = (((filteredSales sales startDate endDate).filter
          fun s => s.paymentMethod = PaymentMethod.mobile).map Sale.total).sum := by
    unfold vesMobileBackToUSD
    congr 1
    apply List.map_congr_left
    intro s hsmem
    have hsr : 0 < s.exchangeRate := hpos s (List.mem_of_mem_filter hsmem)
    field_simp
  have hcard : vesCardBackToUSD (filteredSales sales startDate endDate)
      = (((filteredSales sales startDate endDate).filter
          fun s => s.paymentMethod = PaymentMethod.card).map Sale.total).sum := by
    unfold vesCardBackToUSD
    congr 1
    apply List.map_congr_left
    intro s hsmem
    have hsr : 0 < s.exchangeRate := hpos s (List.mem_of_mem_filter hsmem)
    field_simp
  rw [hmob, hcard, cashCut_spec]
  simp [stats, foldl_add_sale_total]
  exact sum_total_partition _

/-- C3 counterexample: the remote confirmation path of handleCheckout
(src/App.tsx line 282) rewrites the sale's id and date to the remote values,
so id and date are modified by a post-creation operation, contrary to the
claim that only status ever changes. -/
theorem confirm_path_rewrites_id_and_date :
    (confirmSale [saleT1] ("t1") ("srv9") ("2024-03-05T10:00:05Z")).map Sale.id
        ≠ [saleT1].map Sale.id
    ∧ (confirmSale [saleT1] ("t1") ("srv9") ("2024-03-05T10:00:05Z")).map Sale.date
        ≠ [saleT1].map Sale.date := by
  decide

/-- C3 corrected: post-creation mutations never touch the financial fields:
the confirmation path preserves every sale's items, total, paymentMethod,
exchangeRate, orderNumber, status and customerName (rewriting only id and
date of the matching record), and the status-update operation preserves
everything except status. -/
theorem post_creation_mutations_preserve_financial_fields :
    ∀ (sales : List Sale) (tempId newId newDate saleId : String) (ns : OrderStatus)
      (i : ℕ) (s : Sale),
      sales[i]? = some s →
      (((confirmSale sales tempId newId newDate)[i]?).map Sale.items = some s.items
      ∧ ((confirmSale sales tempId newId newDate)[i]?).map Sale.total = some s.total
      ∧ ((confirmSale sales tempId newId newDate)[i]?).map Sale.paymentMethod
          = some s.paymentMethod
      ∧ ((confirmSale sales tempId newId newDate)[i]?).map Sale.exchangeRate
          = some s.exchangeRate
      ∧ ((confirmSale sales tempId newId newDate)[i]?).map Sale.orderNumber
          = some s.orderNumber
      ∧ ((confirmSale sales tempId newId newDate)[i]?).map Sale.status = some s.status
      ∧ ((confirmSale sales tempId newId newDate)[i]?).map Sale.customerName
          = some s.customerName)
      ∧ (((updateSaleStatus sales saleId ns)[i]?).map Sale.id = some s.id
      ∧ ((updateSaleStatus sales saleId ns)[i]?).map Sale.date = some s.date
      ∧ ((updateSaleStatus sales saleId ns)[i]?).map Sale.items = some s.items
      ∧ ((updateSaleStatus sales saleId ns)[i]?).map Sale.total = some s.total
      ∧ ((updateSaleStatus sales saleId ns)[i]?).map Sale.paymentMethod
          = some s.paymentMethod
      ∧ ((updateSaleStatus sales saleId ns)[i]?).map Sale.exchangeRate
          = some s.exchangeRate
      ∧ ((updateSaleStatus sales saleId ns)[i]?).map Sale.orderNumber
          = some s.orderNumber
      ∧ ((updateSaleStatus sales saleId ns)[i]?).map Sale.customerName
          = some s.customerName) := by
  intro sales tempId newId newDate saleId ns i s hs
  have h1 : (confirmSale sales tempId newId newDate)[i]?
      = some (if s.id = tempId then { s with id := newId, date := newDate } else s) := by
    simp [confirmSale, List.getElem?_map, hs]
  have h2 : (updateSaleStatus sales saleId ns)[i]?
      = some (if s.id = saleId then { s with status := ns } else s) := by
    simp [updateSaleStatus, List.getElem?_map, hs]
  constructor
  · rw [h1]
    split <;> simp
  · rw [h2]
    split <;> simp

/-- C3 witness: the field-preservation law applied to the singleton ledger
holding saleT1, confirming id t1 against remote id srv9 and updating the
status of t1 to ready. -/
theorem post_creation_mutations_preserve_financial_fields_witness :
    (((confirmSale [saleT1] ("t1") ("srv9") ("2024-03-05T10:00:05Z"))[0]?).map Sale.items
        = some saleT1.items
    ∧ ((confirmSale [saleT1] ("t1") ("srv9") ("2024-03-05T10:00:05Z"))[0]?).map Sale.total
        = some saleT1.total
    ∧ ((confirmSale [saleT1] ("t1") ("srv9") ("2024-03-05T10:00:05Z"))[0]?).map Sale.paymentMethod
        = some saleT1.paymentMethod
    ∧ ((confirmSale [saleT1] ("t1") ("srv9") ("2024-03-05T10:00:05Z"))[0]?).map Sale.exchangeRate
        = some saleT1.exchangeRate
    ∧ ((confirmSale [saleT1] ("t1") ("srv9") ("2024-03-05T10:00:05Z"))[0]?).map Sale.orderNumber
        = some saleT1.orderNumber
    ∧ ((confirmSale [saleT1] ("t1") ("srv9") ("2024-03-05T10:00:05Z"))[0]?).map Sale.status
        = some saleT1.status
    ∧ ((confirmSale [saleT1] ("t1") ("srv9") ("2024-03-05T10:00:05Z"))[0]?).map Sale.customerName
        = some saleT1.customerName)
    ∧ (((updateSaleStatus [saleT1] ("t1") OrderStatus.ready)[0]?).map Sale.id
        = some saleT1.id
    ∧ ((updateSaleStatus [saleT1] ("t1") OrderStatus.ready)[0]?).map Sale.date
        = some saleT1.date
    ∧ ((updateSaleStatus [saleT1] ("t1") OrderStatus.ready)[0]?).map Sale.items
        = some saleT1.items
    ∧ ((updateSaleStatus [saleT1] ("t1") OrderStatus.ready)[0]?).map Sale.total
        = some saleT1.total
    ∧ ((updateSaleStatus [saleT1] ("t1") OrderStatus.ready)[0]?).map Sale.paymentMethod
        = some saleT1.paymentMethod
    ∧ ((updateSaleStatus [saleT1] ("t1") OrderStatus.ready)[0]?).map Sale.exchangeRate
        = some saleT1.exchangeRate
    ∧ ((updateSaleStatus [saleT1] ("t1") OrderStatus.ready)[0]?).map Sale.orderNumber
        = some saleT1.orderNumber
    ∧ ((updateSaleStatus [saleT1] ("t1") OrderStatus.ready)[0]?).map Sale.customerName
        = some saleT1.customerName) :=
  post_creation_mutations_preserve_financial_fields [saleT1] ("t1") ("srv9")
    ("2024-03-05T10:00:05Z") ("t1") OrderStatus.ready 0 saleT1 rfl

/-- C4 counterexample: db.updateSaleStatus applies the requested transition
completed to pending verbatim, instead of rejecting it as a no-op. -/
theorem updateSaleStatus_applies_completed_to_pending :
    (updateSaleStatus [saleCompleted] ("s1") OrderStatus.pending).map Sale.status
        = [OrderStatus.pending]
    ∧ OrderStatus.pending ≠ OrderStatus.completed
    ∧ saleCompleted.status = OrderStatus.completed := by
  decide

/-- C4 corrected: the status-update operation performs no transition
validation: it sets the status of the sale with the matching id to the
requested status verbatim, and an update for an id not present in the ledger
leaves the ledger unchanged. -/
theorem updateSaleStatus_verbatim_or_noop :
    ∀ (sales : List Sale) (saleId : String) (ns : OrderStatus) (i : ℕ) (s : Sale),
      ((∀ x ∈ sales, x.id ≠ saleId) → updateSaleStatus sales saleId ns = sales)
      ∧ (sales[i]? = some s →
          ((updateSaleStatus sales saleId ns)[i]?).map Sale.status
            = some (if s.id = saleId then ns else s.status)) := by
  intro sales saleId ns i s
  constructor
  · intro habs
    unfold updateSaleStatus
    have hmap : sales.map (fun x => if x.id = saleId then { x with status := ns } else x)
        = sales.map id :=
      List.map_congr_left (fun x hx => by simp [habs x hx])
    simpa using hmap
  · intro hs
    simp only [updateSaleStatus, List.getElem?_map, hs, Option.map_some']
    split <;> simp

/-- C4 witness: updating an absent id leaves the ledger unchanged, and
requesting pending on the completed sale s1 stores pending verbatim. -/
theorem updateSaleStatus_verbatim_or_noop_witness :
    updateSaleStatus [saleCompleted] ("zz") OrderStatus.pending = [saleCompleted]
    ∧ ((updateSaleStatus [saleCompleted] ("s1") OrderStatus.pending)[0]?).map Sale.status
        = some OrderStatus.pending := by
  constructor
  · exact (updateSaleStatus_verbatim_or_noop [saleCompleted] ("zz") OrderStatus.pending 0
      saleCompleted).1 (by decide)
  · exact ((updateSaleStatus_verbatim_or_noop [saleCompleted] ("s1") OrderStatus.pending 0
      saleCompleted).2 rfl).trans (by decide)

/-- C7 witness: the bucket sum law on the concrete March 2024 fixtures, whose
stored rates are all positive. -/
theorem cashCut_buckets_recover_totalRevenue_witness :
    (cashCut (filteredSales salesW ("2024-03-01") ("2024-03-31"))).usdCash
    + (cashCut (filteredSales salesW ("2024-03-01") ("2024-03-31"))).usdZelle
    + vesMobileBackToUSD (filteredSales salesW ("2024-03-01") ("2024-03-31"))
    + vesCardBackToUSD (filteredSales salesW ("2024-03-01") ("2024-03-31"))
    = (stats (filteredSales salesW ("2024-03-01") ("2024-03-31"))
        (filteredExpenses expensesW ("2024-03-01") ("2024-03-31"))).totalRevenue :=
  cashCut_buckets_recover_totalRevenue salesW expensesW ("2024-03-01") ("2024-03-31")
    (by decide)

/-- C5: the exchange-rate refresh either leaves the stored rate at its prior
value or replaces it with a strictly positive number coerced from the promedio
or price field of an ok response; a network error, a non-ok response, or a
response yielding no strictly positive selected value always keeps the prior
rate. -/
theorem fetchBCVRate_failure_keeps_prior_rate :
    ∀ (prior : ℚ) (response : Option RateResponse),
      (fetchBCVRate prior response = prior
        ∨ (0 < fetchBCVRate prior response
           ∧ ∃ data, response = some data ∧ data.ok = true
              ∧ (coerceField data.promedio = some (fetchBCVRate prior response)
                 ∨ coerceField data.price = some (fetchBCVRate prior response))))
      ∧ (response = none → fetchBCVRate prior response = prior)
      ∧ (∀ data, response = some data →
          ¬(data.ok = true ∧ ∃ q, selectRate data = some q ∧ 0 < q) →
          fetchBCVRate prior response = prior) := by
  intro prior response
  cases response with
  | none => exact ⟨Or.inl rfl, fun _ => rfl, fun data hd => Option.noConfusion hd⟩
  | some data =>
    have hmain : fetchBCVRate prior (some data) = prior
        ∨ (0 < fetchBCVRate prior (some data)
           ∧ data.ok = true
           ∧ (coerceField data.promedio = some (fetchBCVRate prior (some data))
              ∨ coerceField data.price = some (fetchBCVRate prior (some data)))) := by
      by_cases hok : data.ok = false
      · left; simp [fetchBCVRate, hok]
      · have hok' : data.ok = true := by
          cases h : data.ok
          · exact absurd h hok
          · rfl
        cases hsel : selectRate data with
        | none => left; simp [fetchBCVRate, hok', hsel]
        | some q =>
          by_cases hq : q > 0
          · right
            have hval : fetchBCVRate prior (some data) = q := by
              simp [fetchBCVRate, hok', hsel, hq]
            refine ⟨by rw [hval]; exact hq, hok', ?_⟩
            rw [hval]
            exact selectRate_from_field data q hsel (ne_of_gt hq)
          · left; simp [fetchBCVRate, hok', hsel, hq]
    refine ⟨?_, fun h => Option.noConfusion h, ?_⟩
    · rcases hmain with h | ⟨hpos, hok, hfield⟩
      · exact Or.inl h
      · exact Or.inr ⟨hpos, data, rfl, hok, hfield⟩
    · intro d hd hfail
      have hdd : data = d := Option.some.inj hd
      subst hdd
      by_cases hok : data.ok = false
      · simp [fetchBCVRate, hok]
      · have hok' : data.ok = true := by
          cases h : data.ok
          · exact absurd h hok
          · rfl
        cases hsel : selectRate data with
        | none => simp [fetchBCVRate, hok', hsel]
        | some q =>
          by_cases hq : 0 < q
          · exact absurd ⟨hok', q, hsel, hq⟩ hfail
          · simp [fetchBCVRate, hok', hsel, hq]

/-- C5 witness: a network error and a response whose promedio coerces to NaN
both keep the prior rate 45. -/
theorem fetchBCVRate_failure_keeps_prior_rate_witness :
    fetchBCVRate 45 none = 45 ∧ fetchBCVRate 45 (some respNaN) = 45 := by
  constructor
  · exact (fetchBCVRate_failure_keeps_prior_rate 45 none).2.1 rfl
  · refine (fetchBCVRate_failure_keeps_prior_rate 45 (some respNaN)).2.2 respNaN rfl ?_
    rintro ⟨-, q, hq, -⟩
    rw [show selectRate respNaN = none from rfl] at hq
    cases hq

/-- C8 counterexample: a parsed amount of -5 with a nonempty description
passes the truthiness guard of handleExpenseSubmit, so an Expense with the
non-positive amount -5 is added, contrary to the claim that non-positive
amounts are rejected. -/
theorem negative_amount_expense_accepted :
    handleExpenseSubmit negForm ("2024-03-05T15:00:00Z") ("99") []
        = [{ id := "99", date := "2024-03-05T15:00:00Z", amount := -5,
             description := "Compra de Pan", category := ExpenseCategory.expense }]
    ∧ ¬(0 < (-5 : ℚ)) := by
  refine ⟨rfl, by decide⟩

/-- C8 corrected: the expense-add operation creates an Expense (stamped with
the current timestamp and carrying the form's category) exactly when the
parsed amount is a nonzero number (negative amounts included) and the
description is nonempty; a NaN or zero amount or an empty description leaves
the ledger unchanged. -/
theorem expense_added_iff_nonzero_amount_and_description :
    ∀ (form : ExpenseForm) (now freshId : String) (expenses : List Expense) (q : ℚ),
      (form.amountUSD = some q → q ≠ 0 → form.description ≠ "" →
        handleExpenseSubmit form now freshId expenses
          = { id := freshId, date := now, amount := q,
              description := form.description, category := form.category } :: expenses)
      ∧ ((form.amountUSD = none ∨ form.amountUSD = some 0 ∨ form.description = "") →
          handleExpenseSubmit form now freshId expenses = expenses) := by
  intro form now freshId expenses q
  constructor
  · intro hq hq0 hd
    simp [handleExpenseSubmit, hq, hq0, hd]
  · rintro (h | h | h)
    · simp [handleExpenseSubmit, h]
    · simp [handleExpenseSubmit, h]
    · cases hA : form.amountUSD <;> simp [handleExpenseSubmit, hA, h]

/-- C8 witness: the parsed amount 4 with description Hielo is added, while the
parsed amount 0 with the same description is rejected. -/
theorem expense_added_iff_nonzero_amount_and_description_witness :
    handleExpenseSubmit posForm ("2024-03-05T15:00:00Z") ("77") []
        = [{ id := "77", date := "2024-03-05T15:00:00Z", amount := 4,
             description := "Hielo", category := ExpenseCategory.expense }]
    ∧ handleExpenseSubmit zeroForm ("2024-03-05T15:00:00Z") ("78") [] = [] := by
  constructor
  · exact (expense_added_iff_nonzero_amount_and_description posForm
      ("2024-03-05T15:00:00Z") ("77") [] 4).1 rfl (by decide) (by decide)
  · exact (expense_added_iff_nonzero_amount_and_description zeroForm
      ("2024-03-05T15:00:00Z") ("78") [] 0).2 (Or.inr (Or.inl rfl))

/-- C9: the rollback policy on a failed remote insert depends on the record
kind: a sale added optimistically by handleCheckout is retained in the local
ledger, while an optimistically added expense or product is filtered back out,
restoring the pre-operation ledger whenever the temporary id was fresh. -/
theorem insert_failure_rollback_differs_by_kind :
    ∀ (sales : List Sale) (newSale : Sale) (expenses : List Expense) (tempE : Expense)
      (products : List Product) (tempP : Product),
      (∀ e ∈ expenses, e.id ≠ tempE.id) →
      (∀ p ∈ products, p.id ≠ tempP.id) →
      handleCheckoutOnline sales newSale RemoteResult.err = newSale :: sales
      ∧ handleAddExpenseOnline expenses tempE RemoteResult.err = expenses
      ∧ handleAddProductOnline products tempP RemoteResult.err = products := by
  intro sales newSale expenses tempE products tempP hE hP
  refine ⟨rfl, ?_, ?_⟩
  · show (tempE :: expenses).filter (fun e => e.id ≠ tempE.id) = expenses
    have h1 : (tempE :: expenses).filter (fun e => e.id ≠ tempE.id)
        = expenses.filter (fun e => e.id ≠ tempE.id) := by
      simp [List.filter_cons]
    rw [h1]
    exact List.filter_eq_self.mpr (fun e he => by simpa using hE e he)
  · show (products ++ [tempP]).filter (fun p => p.id ≠ tempP.id) = products
    have h1 : (products ++ [tempP]).filter (fun p => p.id ≠ tempP.id)
        = products.filter (fun p => p.id ≠ tempP.id) := by
      simp [List.filter_append, List.filter_cons]
    rw [h1]
    exact List.filter_eq_self.mpr (fun p hp => by simpa using hP p hp)

/-- C9 witness: the three rollback behaviours on concrete singleton ledgers
with fresh temporary ids. -/
theorem insert_failure_rollback_differs_by_kind_witness :
    handleCheckoutOnline [saleOld] saleT1 RemoteResult.err = saleT1 :: [saleOld]
    ∧ handleAddExpenseOnline [expenseW] tempExpenseW RemoteResult.err = [expenseW]
    ∧ handleAddProductOnline [productW] tempProductW RemoteResult.err = [productW] :=
  insert_failure_rollback_differs_by_kind [saleOld] saleT1 [expenseW] tempExpenseW
    [productW] tempProductW (by decide) (by decide)

/-- C10 counterexample: a persisted stored-rate string exists (the empty
string) for which the initial rate is the 45.00 fallback rather than
parseFloat of the stored string, because the initialiser tests JavaScript
truthiness and the empty string is falsy. -/
theorem empty_stored_rate_string_uses_fallback :
    initExchangeRate (some ("")) = some 45
    ∧ parseFloat ("") = none
    ∧ initExchangeRate (some ("")) ≠ parseFloat ("") := by
  refine ⟨rfl, rfl, by decide⟩

/-- C10 corrected: at startup the rate is parseFloat of the persisted string
whenever a nonempty one exists, the 45.00 fallback applies when the stored
value is absent or empty, and no numeric or positivity validation occurs: the
stored string abc yields NaN and the stored string -3 yields a non-positive
rate. -/
theorem init_rate_unvalidated_parseFloat :
    ∀ s : String,
      (s ≠ "" → initExchangeRate (some s) = parseFloat s)
      ∧ initExchangeRate none = some 45
      ∧ initExchangeRate (some ("")) = some 45
      ∧ initExchangeRate (some ("abc")) = none
      ∧ initExchangeRate (some ("-3")) = some negStoredRate
      ∧ negStoredRate ≤ 0 := by
  intro s
  refine ⟨fun hs => by simp [initExchangeRate, hs], rfl, rfl, rfl, rfl, ?_⟩
  exact parseFloatChars_neg_nonpos ("-3".data.tail) negStoredRate rfl

/-- C10 witness: a nonempty stored string is parsed, and an absent stored
value falls back to 45. -/
theorem init_rate_unvalidated_parseFloat_witness :
    initExchangeRate (some ("7.5")) = parseFloat ("7.5")
    ∧ initExchangeRate none = some 45 :=
  ⟨(init_rate_unvalidated_parseFloat ("7.5")).1 (by decide),
   (init_rate_unvalidated_parseFloat ("7.5")).2.1⟩

end POS
